import Mathlib

/-!
Shallow embedding of `src/shopping_cart.py` (`class ShoppingCart`).

Each Python method is embedded in state-passing style: it takes the
receiver's state and returns the method's outcome paired with the
receiver's state after the call.  A raised exception is an
`Except.error`; the paired state is the object's state at the moment
the exception propagates (in this code no mutation ever precedes a
raise, so it is the pre-call state).
-/

/-- The Python exceptions this class can raise: `OverflowError` is raised
explicitly in `add`; `TypeError` arises in `get_total_price` from
`total_price += price_dict.get(item)` when `.get` returns `None`. -/
inductive CartError where
  | overflowError
  | typeError
deriving DecidableEq, Repr

/-- `self.items : List[str]` and `self.max_size : int`. -/
structure ShoppingCart where
  items : List String
  max_size : Nat
deriving DecidableEq, Repr

/-- `__init__`: `self.items = []`, `self.max_size = 5`. -/
def ShoppingCart.new : ShoppingCart := ⟨[], 5⟩

/-- `size`: `return len(self.items)`.  No mutation of `self`. -/
def ShoppingCart.size (c : ShoppingCart) : Nat × ShoppingCart :=
  (c.items.length, c)

/-- `add`: `if self.size() == self.max_size: raise OverflowError(...)`,
else `self.items.append(item)`. -/
def ShoppingCart.add (c : ShoppingCart) (item : String) :
    Except CartError Unit × ShoppingCart :=
  if (c.size).1 = c.max_size then (.error .overflowError, c)
  else (.ok (), { c with items := c.items ++ [item] })

/-- `get_items`: `return self.items`.  No mutation of `self`. -/
def ShoppingCart.get_items (c : ShoppingCart) : List String × ShoppingCart :=
  (c.items, c)

/-- Python `dict.get(k)` with no default, on a finite mapping modelled as
an association list (first binding wins): `some v` when the key is
present, `none` otherwise. -/
def dictGet (d : List (String × Int)) (k : String) : Option Int :=
  (d.find? (fun kv => kv.1 = k)).map (fun kv => kv.2)

/-- The loop of `get_total_price`: `for item in self.items:
total_price += price_dict.get(item)`.  Adding `None` to an `int`
raises `TypeError`, aborting the loop with no partial result. -/
def priceLoop (d : List (String × Int)) : Int → List String → Except CartError Int
  | total_price, [] => .ok total_price
  | total_price, item :: rest =>
    match dictGet d item with
    | some p => priceLoop d (total_price + p) rest
    | none => .error .typeError

/-- `get_total_price`: `total_price = 0`; the loop above; `return
total_price`.  Only the local `total_price` is updated, never `self`. -/
def ShoppingCart.get_total_price (c : ShoppingCart) (d : List (String × Int)) :
    Except CartError Int × ShoppingCart :=
  (priceLoop d 0 c.items, c)

/-- Running `for item in l: cart.add(item)`: a raise aborts the loop,
leaving the cart in its state at that point. -/
def ShoppingCart.addListCall : ShoppingCart → List String →
    Except CartError Unit × ShoppingCart
  | c, [] => (.ok (), c)
  | c, item :: rest =>
    match c.add item with
    | (.ok _, c') => ShoppingCart.addListCall c' rest
    | (.error e, c') => (.error e, c')

/-- One observable call on a cart: any of the four methods, with any
argument, moving the cart to the post-call state (whether or not the
call raised). -/
inductive CartStep : ShoppingCart → ShoppingCart → Prop where
  | add (c : ShoppingCart) (item : String) : CartStep c (c.add item).2
  | size (c : ShoppingCart) : CartStep c (c.size).2
  | get_items (c : ShoppingCart) : CartStep c (c.get_items).2
  | get_total_price (c : ShoppingCart) (d : List (String × Int)) :
      CartStep c (c.get_total_price d).2

/-- Cart states reachable from a newly constructed cart by any sequence
of method calls. -/
inductive CartReachable : ShoppingCart → Prop where
  | init : CartReachable ShoppingCart.new
  | step {c c' : ShoppingCart} : CartReachable c → CartStep c c' →
      CartReachable c'

/-! ## Helper lemmas -/

theorem priceLoop_ok_of_present (d : List (String × Int)) (l : List String)
    (h : ∀ i ∈ l, (dictGet d i).isSome) (acc : Int) :
    priceLoop d acc l =
      .ok (acc + (l.map (fun i => (dictGet d i).getD 0)).sum) := by
  induction l generalizing acc with
  | nil => simp [priceLoop]
  | cons i rest ih =>
    have hi : (dictGet d i).isSome := h i (List.mem_cons_self i rest)
    obtain ⟨p, hp⟩ := Option.isSome_iff_exists.mp hi
    simp only [priceLoop, hp]
    rw [ih (fun j hj => h j (List.mem_cons_of_mem i hj)) (acc + p)]
    simp [hp, add_assoc]

theorem priceLoop_error_of_missing (d : List (String × Int)) (l : List String)
    (h : ∃ i ∈ l, dictGet d i = none) (acc : Int) :
    priceLoop d acc l = .error .typeError := by
  induction l generalizing acc with
  | nil => simp at h
  | cons i rest ih =>
    cases hdi : dictGet d i with
    | none => simp [priceLoop, hdi]
    | some p =>
      obtain ⟨j, hj, hjn⟩ := h
      rcases List.mem_cons.mp hj with rfl | hjr
      · rw [hdi] at hjn; cases hjn
      · simp only [priceLoop, hdi]
        exact ih ⟨j, hjr, hjn⟩ (acc + p)

theorem addListCall_ok (l : List String) : ∀ c : ShoppingCart,
    c.items.length + l.length ≤ c.max_size →
    c.addListCall l = (.ok (), ⟨c.items ++ l, c.max_size⟩) := by
  induction l with
  | nil => intro c _; simp [ShoppingCart.addListCall]
  | cons i rest ih =>
    intro c h
    have hne : (c.size).1 ≠ c.max_size := by
      simp only [ShoppingCart.size]
      simp only [List.length_cons] at h
      omega
    have h' : c.items.length + rest.length + 1 ≤ c.max_size := by
      simp only [List.length_cons] at h
      omega
    simp only [ShoppingCart.addListCall, ShoppingCart.add, if_neg hne]
    rw [ih ⟨c.items ++ [i], c.max_size⟩ (by simp; omega)]
    simp

theorem map_sum_count_filter (f : String → Int) (x : String)
    (l : List String) : (l.map f).sum =
      (l.count x : Int) * f x + ((l.filter (fun j => j ≠ x)).map f).sum := by
  induction l with
  | nil => simp
  | cons a rest ih =>
    by_cases hax : a = x
    · subst hax
      simp only [List.map_cons, List.sum_cons, List.count_cons_self, ih,
        List.filter_cons]
      simp
      ring
    · simp only [List.map_cons, List.sum_cons, ih, List.filter_cons]
      rw [List.count_cons_of_ne (Ne.symm hax)]
      simp [hax]
      ring

/-! ## Claim theorems -/

/-- C1: for every cart whose every item is present as a key in the price
lookup, `get_total_price` returns (without raising, and leaving the cart
unchanged) the sum, starting from zero, of the looked-up price of each
item in the cart. -/
theorem getTotalPrice_sums_lookups (c : ShoppingCart) (d : List (String × Int))
    (h : ∀ i ∈ c.items, (dictGet d i).isSome) :
    c.get_total_price d =
      (.ok ((c.items.map (fun i => (dictGet d i).getD 0)).sum), c) := by
  unfold ShoppingCart.get_total_price
  rw [priceLoop_ok_of_present d c.items h 0]
  simp

/-- C1 witness: items `["water","coffee","milk"]` with prices
`{water: 1, coffee: 3, milk: 2}` total 6. -/
theorem getTotalPrice_sums_lookups_witness :
    (∀ i ∈ (⟨["water", "coffee", "milk"], 5⟩ : ShoppingCart).items,
        (dictGet [("water", 1), ("coffee", 3), ("milk", 2)] i).isSome) ∧
    (⟨["water", "coffee", "milk"], 5⟩ : ShoppingCart).get_total_price
        [("water", 1), ("coffee", 3), ("milk", 2)] =
      (.ok 6, ⟨["water", "coffee", "milk"], 5⟩) := by
  refine ⟨by decide, ?_⟩
  have h := getTotalPrice_sums_lookups ⟨["water", "coffee", "milk"], 5⟩
    [("water", 1), ("coffee", 3), ("milk", 2)] (by decide)
  rw [h]
  rfl

/-- C2: for every cart containing at least one item that is not a key of
the price lookup, `get_total_price` raises (the `TypeError` from adding
the `None` returned by the missed lookup — the spec's KeyNotFound
failure) and no partial sum is returned. -/
theorem getTotalPrice_missing_key_errors (c : ShoppingCart)
    (d : List (String × Int)) (h : ∃ i ∈ c.items, dictGet d i = none) :
    c.get_total_price d = (.error .typeError, c) := by
  unfold ShoppingCart.get_total_price
  rw [priceLoop_error_of_missing d c.items h 0]

/-- C2 witness: a cart holding `"beer"`, absent from the price lookup. -/
theorem getTotalPrice_missing_key_errors_witness :
    (∃ i ∈ (⟨["water", "beer"], 5⟩ : ShoppingCart).items,
        dictGet [("water", 1)] i = none) ∧
    (⟨["water", "beer"], 5⟩ : ShoppingCart).get_total_price [("water", 1)] =
      (.error .typeError, ⟨["water", "beer"], 5⟩) :=
  ⟨by decide, getTotalPrice_missing_key_errors ⟨["water", "beer"], 5⟩
    [("water", 1)] (by decide)⟩

/-- C3: for every cart whose current length equals `max_size` and every
item string, `add` raises `OverflowError` (CapacityExceeded) and the
cart's state — items sequence and `max_size` — is exactly what it was
before the call. -/
theorem add_at_capacity_errors (c : ShoppingCart) (item : String)
    (h : c.items.length = c.max_size) :
    c.add item = (.error .overflowError, c) := by
  simp [ShoppingCart.add, ShoppingCart.size, h]

/-- C3 witness: a full cart of five items rejects a sixth. -/
theorem add_at_capacity_errors_witness :
    (⟨["a", "b", "c", "d", "e"], 5⟩ : ShoppingCart).items.length =
      (⟨["a", "b", "c", "d", "e"], 5⟩ : ShoppingCart).max_size ∧
    (⟨["a", "b", "c", "d", "e"], 5⟩ : ShoppingCart).add "coffee" =
      (.error .overflowError, ⟨["a", "b", "c", "d", "e"], 5⟩) :=
  ⟨by decide, add_at_capacity_errors ⟨["a", "b", "c", "d", "e"], 5⟩
    "coffee" (by decide)⟩

/-- C4: for every cart strictly below `max_size` and every item string
(the empty string and duplicates included: `item` is arbitrary), `add`
succeeds and the resulting items sequence is the old one with the item
appended at the end. -/
theorem add_below_capacity_appends (c : ShoppingCart) (item : String)
    (h : c.items.length < c.max_size) :
    c.add item = (.ok (), ⟨c.items ++ [item], c.max_size⟩) := by
  have hne : (c.size).1 ≠ c.max_size := by
    simp only [ShoppingCart.size]
    omega
  simp [ShoppingCart.add, hne]

/-- C4 witness: adding the empty string, itself a duplicate of an item
already present, to a one-slot-free cart appends it at the end. -/
theorem add_below_capacity_appends_witness :
    (⟨["", "x", "x", ""], 5⟩ : ShoppingCart).items.length <
      (⟨["", "x", "x", ""], 5⟩ : ShoppingCart).max_size ∧
    (⟨["", "x", "x", ""], 5⟩ : ShoppingCart).add "" =
      (.ok (), ⟨["", "x", "x", "", ""], 5⟩) :=
  ⟨by decide, add_below_capacity_appends ⟨["", "x", "x", ""], 5⟩ "" (by decide)⟩

theorem cartStep_preserves_bound (c c' : ShoppingCart) (hs : CartStep c c')
    (hc : c.items.length ≤ c.max_size) : c'.items.length ≤ c'.max_size := by
  cases hs with
  | add item =>
    by_cases hfull : (c.size).1 = c.max_size
    · simpa [ShoppingCart.add, hfull] using hc
    · simp only [ShoppingCart.add, if_neg hfull]
      simp only [ShoppingCart.size] at hfull
      simp only [List.length_append, List.length_singleton]
      omega
  | size => exact hc
  | get_items => exact hc
  | get_total_price d => exact hc

/-- C5: every cart state reachable from a newly created cart (empty,
`max_size = 5`) by any sequence of `add`, `size`, `get_items` and
`get_total_price` calls satisfies `0 ≤ length items ≤ max_size`. -/
theorem reachable_cart_invariant (c : ShoppingCart) (h : CartReachable c) :
    0 ≤ c.items.length ∧ c.items.length ≤ c.max_size := by
  induction h with
  | init => exact ⟨Nat.zero_le _, Nat.zero_le _⟩
  | step _ hs ih => exact ⟨Nat.zero_le _, cartStep_preserves_bound _ _ hs ih.2⟩

/-- C5 witness: the state after one `add` on a new cart is reachable and
satisfies the invariant. -/
theorem reachable_cart_invariant_witness :
    CartReachable (ShoppingCart.new.add "apple").2 ∧
    0 ≤ (ShoppingCart.new.add "apple").2.items.length ∧
    (ShoppingCart.new.add "apple").2.items.length ≤
      (ShoppingCart.new.add "apple").2.max_size :=
  have hr : CartReachable (ShoppingCart.new.add "apple").2 :=
    CartReachable.step CartReachable.init (CartStep.add ShoppingCart.new "apple")
  ⟨hr, reachable_cart_invariant (ShoppingCart.new.add "apple").2 hr⟩

/-- C6: for every list of at most `max_size` items, running `add` once
per item on a newly created cart succeeds every time, and `size` then
returns the number of adds; in general `size` returns the current item
count and is always nonnegative. -/
theorem size_counts_successful_adds (l : List String)
    (h : l.length ≤ ShoppingCart.new.max_size) :
    (ShoppingCart.new.addListCall l).1 = .ok () ∧
    ((ShoppingCart.new.addListCall l).2.size).1 = l.length ∧
    ∀ c : ShoppingCart, (c.size).1 = c.items.length ∧ 0 ≤ (c.size).1 := by
  have hx := addListCall_ok l ShoppingCart.new
    (by simpa [ShoppingCart.new] using h)
  rw [hx]
  exact ⟨rfl, by simp [ShoppingCart.size, ShoppingCart.new],
    fun c => ⟨rfl, Nat.zero_le _⟩⟩

/-- C6 witness: three successful adds on a new cart give size 3. -/
theorem size_counts_successful_adds_witness :
    (["a", "b", "c"] : List String).length ≤ ShoppingCart.new.max_size ∧
    ((ShoppingCart.new.addListCall ["a", "b", "c"]).1 = .ok () ∧
      ((ShoppingCart.new.addListCall ["a", "b", "c"]).2.size).1 =
        (["a", "b", "c"] : List String).length ∧
      ∀ c : ShoppingCart, (c.size).1 = c.items.length ∧ 0 ≤ (c.size).1) :=
  ⟨by decide, size_counts_successful_adds ["a", "b", "c"] (by decide)⟩

/-- C7: `get_items` reflects insertion order: after adding `[a, b, c]`
in that order to a new cart it returns `[a, b, c]`, and on an empty
cart it returns the empty sequence (not an absent placeholder). -/
theorem get_items_insertion_order (a b c : String) :
    ((ShoppingCart.new.addListCall [a, b, c]).2.get_items).1 = [a, b, c] ∧
    (ShoppingCart.new.get_items).1 = [] := by
  have hx := addListCall_ok [a, b, c] ShoppingCart.new
    (by simp [ShoppingCart.new])
  rw [hx]
  exact ⟨by simp [ShoppingCart.get_items, ShoppingCart.new], rfl⟩

/-- C8: for every price lookup (the empty one included) and every
capacity, `get_total_price` on an empty cart returns 0. -/
theorem getTotalPrice_empty_cart_zero (m : Nat) (d : List (String × Int)) :
    (⟨[], m⟩ : ShoppingCart).get_total_price d = (.ok 0, ⟨[], m⟩) := rfl

/-- C9: `size`, `get_items` and `get_total_price` leave the cart's state
(items sequence and `max_size`) exactly as it was, for every cart state
and every price lookup. -/
theorem read_calls_preserve_state (c : ShoppingCart) (d : List (String × Int)) :
    (c.size).2 = c ∧ (c.get_items).2 = c ∧ (c.get_total_price d).2 = c :=
  ⟨rfl, rfl, rfl⟩

/-- C10: duplicates each contribute: when every cart item has a price
and `item` has price `p`, the total is `(count of item) * p` plus the
summed prices of the other occurrences. -/
theorem duplicate_items_each_contribute (c : ShoppingCart)
    (d : List (String × Int)) (item : String) (p : Int)
    (hp : dictGet d item = some p)
    (h : ∀ i ∈ c.items, (dictGet d i).isSome) :
    c.get_total_price d =
      (.ok ((c.items.count item : Int) * p +
        ((c.items.filter (fun j => j ≠ item)).map
          (fun i => (dictGet d i).getD 0)).sum), c) := by
  unfold ShoppingCart.get_total_price
  rw [priceLoop_ok_of_present d c.items h 0]
  rw [map_sum_count_filter (fun i => (dictGet d i).getD 0) item c.items]
  simp [hp]

/-- C10 witness: `"water"` occurs twice at price 2 and contributes 4 to
the total 7. -/
theorem duplicate_items_each_contribute_witness :
    dictGet [("water", 2), ("milk", 3)] "water" = some 2 ∧
    (∀ i ∈ (⟨["water", "water", "milk"], 5⟩ : ShoppingCart).items,
        (dictGet [("water", 2), ("milk", 3)] i).isSome) ∧
    (⟨["water", "water", "milk"], 5⟩ : ShoppingCart).get_total_price
        [("water", 2), ("milk", 3)] =
      (.ok 7, ⟨["water", "water", "milk"], 5⟩) := by
  refine ⟨by decide, by decide, ?_⟩
  have h := duplicate_items_each_contribute ⟨["water", "water", "milk"], 5⟩
    [("water", 2), ("milk", 3)] "water" 2 (by decide) (by decide)
  rw [h]
  rfl
